import Mathlib

set_option autoImplicit false

/-!
Verification of the core of the gii-document-qa repository: the
content-addressed extraction cache (`document_processor.py`), the batch
question-answering orchestrator (`batch_qa_processor.py`), the LLM client
(`llm_client.py`), and the CSV exporter.  Python functions are shallowly
embedded as executable Lean definitions; the mutable `DocumentProcessor`
object is modelled by explicit state passing, and the filesystem by
association lists from paths to contents.  Python exceptions are modelled
with `Except`; `try`/`except` blocks become pattern matches.
-/

/-! ## Python string primitives used by the source -/

/-- ASCII whitespace characters recognised by Python's `str.strip()` /
`str.split()` (the source only ever handles ASCII text in the claims'
scenarios, so the Unicode whitespace extension is not modelled). -/
def isPyWs (c : Char) : Bool :=
  c = ' ' || c = '\t' || c = '\n' || c = '\r' || c = '\x0b' || c = '\x0c'

/-- Python `str.strip()` on a character list: drop leading and trailing
whitespace. -/
def pyStripC (l : List Char) : List Char :=
  (((l.dropWhile isPyWs).reverse.dropWhile isPyWs)).reverse

/-- Python `str.strip()`. -/
def pyStrip (s : String) : String := ⟨pyStripC s.data⟩

/-- Python `str.split('\n')` on a character list: split at every newline,
keeping empty pieces (`"a\n\nb" ↦ ["a","","b"]`, `"" ↦ [""]`). -/
def pySplitNl : List Char → List (List Char)
  | [] => [[]]
  | c :: rest =>
    if c = '\n' then [] :: pySplitNl rest
    else
      match pySplitNl rest with
      | [] => [[c]]
      | l :: ls => (c :: l) :: ls

/-- Python `' '.join(lines)` on character lists. -/
def joinSep : List (List Char) → List Char
  | [] => []
  | [l] => l
  | l :: ls => l ++ ' ' :: joinSep ls

/-- Python `str.split()` with no argument: maximal runs of non-whitespace
characters (used only for `word_count`). -/
def pyWords (l : List Char) : List (List Char) :=
  (List.splitOnP isPyWs l).filter (· ≠ [])

/-- One pass of Python `formatted.replace('  ', ' ')`: replace each
non-overlapping occurrence of two spaces by one, scanning left to right. -/
def replaceDD : List Char → List Char
  | [] => []
  | [c] => [c]
  | c :: d :: rest =>
    if c = ' ' ∧ d = ' ' then ' ' :: replaceDD rest
    else c :: replaceDD (d :: rest)

/-- Whether the list contains two adjacent spaces (Python `'  ' in formatted`). -/
def hasDD : List Char → Bool
  | [] => false
  | [_] => false
  | c :: d :: rest => (c = ' ' && d = ' ') || hasDD (d :: rest)

theorem replaceDD_length_le : ∀ l : List Char, (replaceDD l).length ≤ l.length := by
  intro l
  induction l using replaceDD.induct with
  | case1 => simp [replaceDD]
  | case2 c => simp [replaceDD]
  | case3 c d rest hcd ih =>
    simp only [replaceDD, if_pos hcd, List.length_cons]
    omega
  | case4 c d rest hcd ih =>
    simp only [replaceDD, if_neg hcd, List.length_cons] at ih ⊢
    omega

theorem replaceDD_length_lt : ∀ l : List Char, hasDD l = true →
    (replaceDD l).length < l.length := by
  intro l
  induction l using replaceDD.induct with
  | case1 => simp [hasDD]
  | case2 c => simp [hasDD]
  | case3 c d rest hcd ih =>
    intro _
    have := replaceDD_length_le rest
    simp only [replaceDD, if_pos hcd, List.length_cons]
    omega
  | case4 c d rest hcd ih =>
    intro h
    have hdd : hasDD (d :: rest) = true := by
      simp only [hasDD, Bool.or_eq_true, Bool.and_eq_true, decide_eq_true_eq] at h
      rcases h with ⟨h1, h2⟩ | h
      · exact absurd ⟨h1, h2⟩ hcd
      · exact h
    have := ih hdd
    simp only [List.length_cons] at this
    simp only [replaceDD, if_neg hcd, List.length_cons]
    omega

/-- Python `while '  ' in formatted: formatted = formatted.replace('  ', ' ')`,
run with an explicit fuel bound.  Since `replaceDD` strictly shrinks the list
while a double space is present (`replaceDD_length_lt`), `l.length` iterations
always suffice to reach the loop's exit condition, so the fuelled loop is the
exact behaviour of the Python `while` loop. -/
def collapseLoopF : Nat → List Char → List Char
  | 0, l => l
  | fuel + 1, l => if hasDD l then collapseLoopF fuel (replaceDD l) else l

def collapseLoop (l : List Char) : List Char := collapseLoopF l.length l

/-- The loop only stops once no double space remains, mirroring the Python
`while` condition. -/
theorem hasDD_collapseLoopF (fuel : Nat) :
    ∀ l : List Char, l.length ≤ fuel → hasDD (collapseLoopF fuel l) = false := by
  induction fuel with
  | zero =>
    intro l hl
    have : l = [] := List.length_eq_zero.mp (Nat.le_zero.mp hl)
    subst this
    simp [collapseLoopF, hasDD]
  | succ n ih =>
    intro l hl
    by_cases h : hasDD l = true
    · have hlt := replaceDD_length_lt l h
      simp only [collapseLoopF, h, if_true]
      exact ih _ (by omega)
    · simp only [collapseLoopF, Bool.not_eq_true] at h ⊢
      simp [h]

theorem hasDD_collapseLoop (l : List Char) : hasDD (collapseLoop l) = false :=
  hasDD_collapseLoopF l.length l le_rfl

/-- `BatchQAProcessor._format_answer_for_csv` on a character list: split on
newlines, strip each line, drop empty lines, join with single spaces,
collapse runs of spaces, strip the result. -/
def formatAnswerForCsvC (answer : List Char) : List Char :=
  if answer = [] then []
  else
    let lines := (pySplitNl answer).map pyStripC
    let lines := lines.filter (· ≠ [])
    let formatted := joinSep lines
    pyStripC (collapseLoop formatted)

/-- `BatchQAProcessor._format_answer_for_csv` (`batch_qa_processor.py`
lines 24-48). -/
def formatAnswerForCsv (answer : String) : String :=
  ⟨formatAnswerForCsvC answer.data⟩

example : formatAnswerForCsv "Line one\n\nLine two  with   extra spaces\n" =
    "Line one Line two with extra spaces" := by decide

example : formatAnswerForCsv "a\t\tb" = "a\t\tb" := by decide

/-! ## `llm_client.py`: the answering backend -/

/-- The dictionary returned by `LLMClient.ask_question_structured` on
success: `{"answer": ..., "model": ..., "provider": ...}`. -/
structure AskResult where
  answer : String
  model : String
  provider : String
deriving DecidableEq, Repr

/-- `LLMClient`.  The `ollama run` subprocess boundary is modelled by
`ollamaRun model prompt`, which returns `(returncode, stdout, stderr)` on a
completed subprocess, or `.error msg` when spawning/communicating itself
raises (`msg` being the Python exception text).  `provider` is the string
stored by `__init__` (always `"ollama"`, enforced there). -/
structure LLMClient where
  ollamaRun : String → String → Except String (Nat × String × String)
  provider : String
deriving Inhabited

/-- The f-string prompt built by `LLMClient._ask_question_structured_async`
(`llm_client.py` lines 102-117). -/
def structuredPromptLLM (document_text question : String) : String :=
  "You are a helpful assistant that answers questions based on the provided document content.\n\nDocument Content:\n"
    ++ document_text
    ++ "\n\nQuestion: " ++ question
    ++ "\n\nPlease provide a clear, concise answer based on the document content. Format your response as follows:\n- Use complete sentences but be concise\n- Write in a single paragraph without line breaks\n- If listing multiple items, separate them with semicolons (;) not bullet points\n- Keep the answer focused and to-the-point\n- If the answer cannot be found in the document, state \"Information not found in document\"\n- Do not use markdown formatting, bullet points, or numbered lists\n\nAnswer:"

/-- `LLMClient.ask_question_structured` (the synchronous wrapper around
`_ask_question_structured_async`, `llm_client.py` lines 38-51 and 94-140):
default the model, run the `ollama` subprocess, raise
`"Ollama command failed: <stderr>"` on a non-zero return code, and wrap any
exception from the `try` block as `"Ollama error: <e>"`. -/
def askQuestionStructured (client : LLMClient) (document_text question : String)
    (model : Option String) : Except String AskResult :=
  let m := model.getD "gemma2:2b"
  match client.ollamaRun m (structuredPromptLLM document_text question) with
  | .error e => .error ("Ollama error: " ++ e)
  | .ok (returncode, stdout, stderr) =>
    if returncode ≠ 0 then
      .error ("Ollama error: " ++ ("Ollama command failed: " ++ pyStrip stderr))
    else
      .ok { answer := pyStrip stdout, model := m, provider := client.provider }

/-! ## `batch_qa_processor.py`: the batch orchestrator -/

/-- One Q&A result dictionary appended by
`BatchQAProcessor.process_questions_batch`.  `answer`, `model` and `error`
are `Option` because the Python code stores `None` in them on the opposite
status. -/
structure QAResult where
  document_name : String
  question_number : Nat
  question : String
  answer : Option String
  model : Option String
  provider : String
  status : String
  error : Option String
deriving DecidableEq, Repr

/-- The body of the per-question loop of
`BatchQAProcessor.process_questions_batch` (`batch_qa_processor.py` lines
102-138): call the backend inside `try`, build a success dictionary with the
CSV-formatted answer, or catch the exception and build an error dictionary
with `answer=None` and `error=str(e)`. -/
def processPair (client : LLMClient) (document_text question : String) (i : Nat)
    (document_name : String) (model : Option String) : QAResult :=
  match askQuestionStructured client document_text question model with
  | .ok result =>
    { document_name := document_name
      question_number := i
      question := question
      answer := some (formatAnswerForCsv result.answer)
      model := some result.model
      provider := result.provider
      status := "success"
      error := none }
  | .error e =>
    { document_name := document_name
      question_number := i
      question := question
      answer := none
      model := model
      provider := client.provider
      status := "error"
      error := some e }

/-- The loop `for i, question in enumerate(questions, 1)` of
`process_questions_batch`, carrying the 1-based counter explicitly. -/
def processQuestionsBatchAux (client : LLMClient) (document_text document_name : String)
    (model : Option String) : Nat → List String → List QAResult
  | _, [] => []
  | i, question :: rest =>
    processPair client document_text question i document_name model ::
      processQuestionsBatchAux client document_text document_name model (i + 1) rest

/-- `BatchQAProcessor.process_questions_batch` (`batch_qa_processor.py`
lines 79-141).  Every backend exception is caught inside the loop, so the
embedding is a total function into a result list: no exception escapes. -/
def processQuestionsBatch (client : LLMClient) (document_text : String)
    (questions : List String) (document_name : String) (model : Option String) :
    List QAResult :=
  processQuestionsBatchAux client document_text document_name model 1 questions

/-- The document dictionary produced by `DocumentProcessor.process_document`
(`document_processor.py` lines 181-190 and 99-108). -/
structure DocumentData where
  file_path : String
  file_name : String
  file_extension : String
  text_content : String
  word_count : Nat
  char_count : Nat
  from_cache : Bool
  file_hash : String
deriving DecidableEq, Repr

/-- `BatchQAProcessor.process_multiple_documents_batch`
(`batch_qa_processor.py` lines 198-237): run `process_questions_batch` for
each document in input order and concatenate the results.  The body contains
no raising statement, so the embedding is total: the batch never fails as a
whole. -/
def processMultipleDocumentsBatch (client : LLMClient)
    (documents : List DocumentData) (questions : List String)
    (model : Option String) : List QAResult :=
  match documents with
  | [] => []
  | doc :: rest =>
    processQuestionsBatch client doc.text_content questions doc.file_name model ++
      processMultipleDocumentsBatch client rest questions model

/-! ## `BatchQAProcessor.export_to_csv`: the CSV artifact

The Python code writes with `csv.DictWriter(csvfile, fieldnames=...,
quoting=csv.QUOTE_ALL)` on a file opened with `newline=''`: every field
(header and data) is wrapped in double quotes with embedded quotes doubled,
fields are joined with commas, rows are terminated with the csv module's
default `"\r\n"`, and `None` values are written as the empty string while
integers are written with `str`. -/

/-- Double every `'"'` (the csv module's escaping under `doublequote=True`). -/
def escQ : List Char → List Char
  | [] => []
  | c :: rest => if c = '"' then '"' :: '"' :: escQ rest else c :: escQ rest

/-- One fully quoted field, as written under `csv.QUOTE_ALL`. -/
def quoteField (f : List Char) : List Char := '"' :: (escQ f ++ ['"'])

/-- Quote every field and join with commas. -/
def sepFields : List (List Char) → List Char
  | [] => []
  | [f] => quoteField f
  | f :: fs => quoteField f ++ ',' :: sepFields fs

/-- One CSV row: quoted comma-separated fields plus the `"\r\n"` terminator. -/
def csvRowC (fields : List (List Char)) : List Char := sepFields fields ++ ['\r', '\n']

/-- The `fieldnames` list of `export_to_csv` (`batch_qa_processor.py`
lines 174-183), which is also the header row. -/
def headerFieldNames : List String :=
  ["document_name", "question_number", "question", "answer",
   "model", "provider", "status", "error"]

/-- Python `str`/`None` conversion the csv writer applies to a field value. -/
def fieldOfOpt : Option String → String
  | none => ""
  | some s => s

/-- The eight field values `DictWriter.writerow` writes for one result
dictionary, in `fieldnames` order. -/
def recordFields (r : QAResult) : List String :=
  [r.document_name, toString r.question_number, r.question, fieldOfOpt r.answer,
   fieldOfOpt r.model, r.provider, r.status, fieldOfOpt r.error]

/-- All rows of the artifact, header first, as lists of field characters. -/
def rowsOf (results : List QAResult) : List (List (List Char)) :=
  (headerFieldNames.map String.data) ::
    results.map (fun r => (recordFields r).map String.data)

/-- The complete artifact text written by `export_to_csv`. -/
def exportContentC (results : List QAResult) : List Char :=
  List.flatten ((rowsOf results).map csvRowC)

/-- `BatchQAProcessor.export_to_csv` (`batch_qa_processor.py` lines
143-196) against a filesystem modelled as `path ↦ contents`.  The output
path is taken as an argument (the timestamped default name generation is
environment time, not modelled).  The file is opened for writing directly
at `output_path` — there is no temporary file — and the rows are written
sequentially; `fail_after = some k` injects an I/O failure on the
`(k+1)`-th row write, after which the exception propagates to the caller
(the function has no `try`/`except`), leaving the rows already written at
the output path.  `fail_after = none` means all writes succeed.  On an
empty result list, `ValueError("No results to export")` is raised before
the file is opened. -/
def exportToCsvFS (results : List QAResult) (output_path : String)
    (fail_after : Option Nat) (fs : List (String × List Char)) :
    List (String × List Char) × Except String String :=
  if results = [] then (fs, .error "No results to export")
  else
    let rows := (rowsOf results).map csvRowC
    match fail_after with
    | none => ((output_path, List.flatten rows) :: fs, .ok output_path)
    | some k =>
      if k < rows.length then
        ((output_path, List.flatten (rows.take k)) :: fs, .error "I/O error while writing")
      else ((output_path, List.flatten rows) :: fs, .ok output_path)

/-- Association-list lookup, used for the modelled filesystem and cache
index (first binding wins, matching the most recent write being consed on). -/
def alookup {α : Type} : List (String × α) → String → Option α
  | [], _ => none
  | (k', v) :: rest, k => if k' = k then some v else alookup rest k

/-! A strict parser for the exact artifact format: it accepts only fully
quoted fields (so a successful parse certifies that every written field was
quoted), undoes the quote doubling, splits fields at commas and rows at
`"\r\n"`.  It is the inverse direction used to state that the export is
well-formed and order/content preserving. -/

/-- Parse the inside of a quoted field (the opening quote already consumed):
`""` is an escaped quote, a lone `"` closes the field.  The fuel only bounds
recursion depth; one unit per consumed character suffices. -/
def parseQuotedF : Nat → List Char → Option (List Char × List Char)
  | 0, _ => none
  | _ + 1, [] => none
  | fuel + 1, c :: rest =>
    if c = '"' then
      match rest with
      | [] => some ([], [])
      | c2 :: rest2 =>
        if c2 = '"' then (parseQuotedF fuel rest2).map (fun p => ('"' :: p.1, p.2))
        else some ([], c2 :: rest2)
    else (parseQuotedF fuel rest).map (fun p => (c :: p.1, p.2))

/-- Parse one row: a `"`-opened field, then either `,` and more fields or
the `"\r\n"` row terminator. -/
def parseRecordF : Nat → List Char → Option (List (List Char) × List Char)
  | 0, _ => none
  | _ + 1, [] => none
  | fuel + 1, c :: l =>
    if c = '"' then
      match parseQuotedF fuel l with
      | none => none
      | some (f, r) =>
        match r with
        | [] => none
        | r0 :: r1 =>
          if r0 = ',' then
            match parseRecordF fuel r1 with
            | none => none
            | some (fs, r3) => some (f :: fs, r3)
          else if r0 = '\r' then
            match r1 with
            | [] => none
            | r2 :: r3 => if r2 = '\n' then some ([f], r3) else none
          else none
    else none

/-- Parse a whole artifact into its rows of fields. -/
def parseRowsF : Nat → List Char → Option (List (List (List Char)))
  | 0, _ => none
  | _ + 1, [] => some []
  | fuel + 1, c :: l =>
    match parseRecordF (fuel + 1) (c :: l) with
    | none => none
    | some (r, rest) =>
      match parseRowsF fuel rest with
      | none => none
      | some rs => some (r :: rs)

/-- Parse a CSV document in the writer's exact format. -/
def parseCsvC (l : List Char) : Option (List (List (List Char))) :=
  parseRowsF (l.length + 1) l

/-! ## `document_processor.py`: the extraction cache

`DocumentProcessor` keeps a mutable `self.cache_index` dictionary, a cache
directory of blob files `<hash>.txt`, and a persisted `cache_index.json`.
The state below carries all three explicitly.  Blob files are written with
`open(path, 'w', encoding='utf-8')` and read with
`open(path, 'r', encoding='utf-8')` — in both cases **without**
`newline=''` (unlike the csv writer, which passes it).  On a POSIX system
(`os.linesep = "\n"`, and this repository hardcodes a macOS tesseract
path), writing is therefore the identity on the text, while reading applies
Python's universal-newline translation: `"\r\n"` and lone `"\r"` become
`"\n"`.  The index file round-trips through `json.dump`/`json.load`, which
escapes control characters, so index metadata is modelled as stored
structurally. -/

/-- Python universal-newline translation applied by text-mode reading:
`"\r\n" ↦ "\n"` and lone `"\r" ↦ "\n"`. -/
def univNewlinesC : List Char → List Char
  | [] => []
  | ['\r'] => ['\n']
  | '\r' :: '\n' :: rest => '\n' :: univNewlinesC rest
  | '\r' :: c :: rest => '\n' :: univNewlinesC (c :: rest)
  | c :: rest => c :: univNewlinesC rest

def univNewlines (s : String) : String := ⟨univNewlinesC s.data⟩

/-- The value stored in `self.cache_index[file_hash]`
(`document_processor.py` lines 130-136). -/
structure CacheEntry where
  file_path : String
  file_name : String
  file_extension : String
  word_count : Nat
  char_count : Nat
deriving DecidableEq, Repr

/-- The outcome of one `open(path, 'w')` + write sequence.  Python's
`open(..., 'w')` truncates the target file *before* anything is written,
so the three observable outcomes of a durable write are: everything
succeeded; `open` itself raised (target untouched); or the write raised
after `open`, leaving a truncated file holding only the characters written
so far. -/
inductive WriteOutcome where
  | ok : WriteOutcome
  | openFail : WriteOutcome
  | midFail : Nat → WriteOutcome
deriving DecidableEq, Repr

/-- The on-disk state of `cache_index.json`: either a well-formed JSON dump
of a mapping, or a truncated/partial file left by a failed write, which is
not parsable JSON. -/
inductive IndexFile where
  | parsed : List (String × CacheEntry) → IndexFile
  | corrupt : IndexFile
deriving DecidableEq, Repr

/-- `DocumentProcessor._load_cache_index` (`document_processor.py` lines
43-52) applied to an existing index file: a well-formed file yields the
stored mapping; on a corrupt (truncated) file `json.load` raises, the
exception is caught, a warning is printed and the empty index `{}` is
returned. -/
def loadCacheIndex : IndexFile → List (String × CacheEntry)
  | .parsed idx => idx
  | .corrupt => []

/-- `DocumentProcessor._save_cache_index` (`document_processor.py` lines
54-60) with an injected write outcome.  `open(self.cache_index_path, 'w')`
truncates the index file, so success replaces its content with the JSON
dump of `cache_index`; a failure of `open` itself leaves the previous file;
and a mid-write failure leaves a truncated, unparsable file.  The method
catches every exception itself (printing only a warning), so it always
returns normally to its caller. -/
def saveCacheIndex (old : IndexFile) (cache_index : List (String × CacheEntry)) :
    WriteOutcome → IndexFile
  | .ok => .parsed cache_index
  | .openFail => old
  | .midFail _ => .corrupt

/-- The mutable state of a `DocumentProcessor` together with its backing
storage: the in-memory index, the blob files on disk (`path ↦ raw
contents`), and the persisted index file. -/
structure CacheState where
  cache_dir : String
  cache_index : List (String × CacheEntry)
  files : List (String × String)
  durable_index : IndexFile
deriving DecidableEq, Repr

/-- `os.path.join(self.cache_dir, f"{file_hash}.txt")`. -/
def textPathOf (st : CacheState) (file_hash : String) : String :=
  st.cache_dir ++ "/" ++ file_hash ++ ".txt"

/-- `DocumentProcessor._get_cached_document` (`document_processor.py` lines
79-112).  The method mutates nothing — it returns the state unchanged —
and returns `None` (a miss) when the hash is not indexed or the blob file
does not exist; a present blob is read with universal-newline translation.
All exceptions from the read are caught inside the method. -/
def getCachedDocument (st : CacheState) (file_hash : String) :
    CacheState × Option DocumentData :=
  match alookup st.cache_index file_hash with
  | none => (st, none)
  | some cache_entry =>
    match alookup st.files (textPathOf st file_hash) with
    | none => (st, none)
    | some raw =>
      (st, some
        { file_path := cache_entry.file_path
          file_name := cache_entry.file_name
          file_extension := cache_entry.file_extension
          text_content := univNewlines raw
          word_count := cache_entry.word_count
          char_count := cache_entry.char_count
          from_cache := true
          file_hash := file_hash })

/-- The index entry `_cache_document` builds from a document dictionary. -/
def entryOfDocument (d : DocumentData) : CacheEntry :=
  { file_path := d.file_path
    file_name := d.file_name
    file_extension := d.file_extension
    word_count := d.word_count
    char_count := d.char_count }

/-- `DocumentProcessor._cache_document` (`document_processor.py` lines
114-144).  `blob_write` and `index_write` inject the outcome of the two
durable writes.  The blob is written with `open(cache_text_path, 'w')`:
if `open` itself raises the file is untouched, while a failure during the
write leaves a truncated blob (the characters written so far) because
`open(..., 'w')` truncates first; either exception skips the index
mutation and `_save_cache_index` and is caught by the method's own
`except`, which only prints a warning.  When the blob write succeeds, the
in-memory index is mutated and then `_save_cache_index` runs with its own
swallowed failure modes (`saveCacheIndex`).  In every case the method
returns `None` to `process_document`: no error is ever reported to the
caller. -/
def cacheDocument (st : CacheState) (blob_write index_write : WriteOutcome)
    (file_hash : String) (document_data : DocumentData) : CacheState :=
  let cache_text_path := textPathOf st file_hash
  match blob_write with
  | .openFail => st
  | .midFail n =>
    { st with files :=
        (cache_text_path, ⟨document_data.text_content.data.take n⟩) :: st.files }
  | .ok =>
    let st1 : CacheState :=
      { st with files := (cache_text_path, document_data.text_content) :: st.files }
    let st2 : CacheState :=
      { st1 with cache_index := (file_hash, entryOfDocument document_data) :: st1.cache_index }
    { st2 with durable_index := saveCacheIndex st2.durable_index st2.cache_index index_write }

/-- The input documents visible on disk to `process_document`
(`path ↦ file bytes`). -/
structure World where
  inputFiles : List (String × List Nat)

/-- `os.path.basename`: the part after the last `'/'`. -/
def basenameOf (p : String) : String :=
  ⟨p.data.foldl (fun acc c => if c = '/' then [] else acc ++ [c]) []⟩

/-- The extension part of `os.path.splitext` (POSIX): the suffix of the
basename starting at its last dot, except that a basename whose characters
before that dot are all dots (e.g. `".bashrc"`) has no extension. -/
def splitextExt (p : String) : String :=
  let b := (basenameOf p).data
  let r := b.reverse
  let afterRev := r.takeWhile (fun c => c ≠ '.')
  if afterRev.length = r.length then ""
  else
    let beforeDot := (r.drop (afterRev.length + 1)).reverse
    if beforeDot.any (fun c => c ≠ '.') then ⟨'.' :: afterRev.reverse⟩ else ""

/-- Python `str.lower()` restricted to ASCII letters. -/
def asciiLower (s : String) : String :=
  ⟨s.data.map (fun c => if 'A' ≤ c ∧ c ≤ 'Z' then Char.ofNat (c.toNat + 32) else c)⟩

/-- `DocumentProcessor.SUPPORTED_EXTENSIONS = {'.pdf'}`. -/
def supportedExtensions : List String := [".pdf"]

/-- `DocumentProcessor.process_document` (`document_processor.py` lines
146-195).  `hashOf` abstracts `_compute_file_hash` (a deterministic
function of the file bytes); `extractPdf` abstracts the
PyMuPDF/OCR extraction of `_process_pdf`, whose exceptions are re-raised as
`"Error processing PDF: <e>"` and propagate out of `process_document`.
On a cache hit the cached dictionary is returned with its `file_path`
overwritten by the current argument (line 173 of the source). -/
def processDocument (hashOf : List Nat → String)
    (extractPdf : List Nat → Except String String) (w : World)
    (st : CacheState) (blob_write index_write : WriteOutcome)
    (file_path : String) (force_reprocess : Bool) :
    Except String (DocumentData × CacheState) :=
  match alookup w.inputFiles file_path with
  | none => .error ("File not found: " ++ file_path)
  | some bytes =>
    let file_ext := asciiLower (splitextExt file_path)
    if file_ext ∈ supportedExtensions then
      let file_hash := hashOf bytes
      let step : CacheState × Option DocumentData :=
        if force_reprocess then (st, none) else getCachedDocument st file_hash
      match step with
      | (st1, some cached_data) =>
        .ok ({ cached_data with file_path := file_path }, st1)
      | (st1, none) =>
        match extractPdf bytes with
        | .error e => .error ("Error processing PDF: " ++ e)
        | .ok text_content =>
          let document_data : DocumentData :=
            { file_path := file_path
              file_name := basenameOf file_path
              file_extension := file_ext
              text_content := text_content
              word_count := if text_content = "" then 0 else (pyWords text_content.data).length
              char_count := if text_content = "" then 0 else text_content.data.length
              from_cache := false
              file_hash := file_hash }
          .ok (document_data,
            cacheDocument st1 blob_write index_write file_hash document_data)
    else .error ("Unsupported file format: " ++ file_ext)

/-! ## Lemmas about the batch orchestrator -/

theorem processQuestionsBatchAux_length (client : LLMClient)
    (document_text document_name : String) (model : Option String) :
    ∀ (i : Nat) (qs : List String),
      (processQuestionsBatchAux client document_text document_name model i qs).length
        = qs.length := by
  intro i qs
  induction qs generalizing i with
  | nil => simp [processQuestionsBatchAux]
  | cons q rest ih => simp [processQuestionsBatchAux, ih]

theorem processQuestionsBatchAux_getElem? (client : LLMClient)
    (document_text document_name : String) (model : Option String) :
    ∀ (i : Nat) (qs : List String) (j : Nat),
      (processQuestionsBatchAux client document_text document_name model i qs)[j]?
        = (qs[j]?).map
            (fun q => processPair client document_text q (i + j) document_name model) := by
  intro i qs
  induction qs generalizing i with
  | nil => intro j; simp [processQuestionsBatchAux]
  | cons q rest ih =>
    intro j
    cases j with
    | zero => simp [processQuestionsBatchAux]
    | succ j' =>
      simp only [processQuestionsBatchAux, List.getElem?_cons_succ, ih (i + 1) j']
      have : i + 1 + j' = i + (j' + 1) := by omega
      rw [this]

theorem processQuestionsBatch_length (client : LLMClient)
    (document_text : String) (questions : List String) (document_name : String)
    (model : Option String) :
    (processQuestionsBatch client document_text questions document_name model).length
      = questions.length :=
  processQuestionsBatchAux_length client document_text document_name model 1 questions

theorem processQuestionsBatch_getElem? (client : LLMClient)
    (document_text : String) (questions : List String) (document_name : String)
    (model : Option String) (j : Nat) :
    (processQuestionsBatch client document_text questions document_name model)[j]?
      = (questions[j]?).map
          (fun q => processPair client document_text q (j + 1) document_name model) := by
  rw [processQuestionsBatch, processQuestionsBatchAux_getElem?]
  have : 1 + j = j + 1 := by omega
  rw [this]

theorem processMultipleDocumentsBatch_length (client : LLMClient)
    (questions : List String) (model : Option String) :
    ∀ documents : List DocumentData,
      (processMultipleDocumentsBatch client documents questions model).length
        = documents.length * questions.length := by
  intro documents
  induction documents with
  | nil => simp [processMultipleDocumentsBatch]
  | cons doc rest ih =>
    simp only [processMultipleDocumentsBatch, List.length_append, ih,
      processQuestionsBatch_length, List.length_cons]
    ring

theorem processMultipleDocumentsBatch_getElem? (client : LLMClient)
    (questions : List String) (model : Option String) :
    ∀ (documents : List DocumentData) (d q : Nat) (doc : DocumentData)
      (question : String),
      documents[d]? = some doc → questions[q]? = some question →
      (processMultipleDocumentsBatch client documents questions model)[d * questions.length + q]?
        = some (processPair client doc.text_content question (q + 1) doc.file_name model) := by
  intro documents
  induction documents with
  | nil => intro d q doc question hd; simp at hd
  | cons doc0 rest ih =>
    intro d q doc question hd hq
    have hqlt : q < questions.length := by
      rcases List.getElem?_eq_some.mp hq with ⟨h, _⟩
      exact h
    cases d with
    | zero =>
      simp only [List.getElem?_cons_zero, Option.some.injEq] at hd
      subst hd
      simp only [processMultipleDocumentsBatch, Nat.zero_mul, Nat.zero_add]
      rw [List.getElem?_append_left
        (by rw [processQuestionsBatch_length]; exact hqlt)]
      rw [processQuestionsBatch_getElem?, hq, Option.map_some']
    | succ d' =>
      simp only [List.getElem?_cons_succ] at hd
      have harith : (d' + 1) * questions.length + q
          = (processQuestionsBatch client doc0.text_content questions doc0.file_name model).length
            + (d' * questions.length + q) := by
        rw [processQuestionsBatch_length]
        ring
      simp only [processMultipleDocumentsBatch]
      rw [harith, List.getElem?_append_right (Nat.le_add_right _ _), Nat.add_sub_cancel_left]
      exact ih d' q doc question hd hq

/-- Errors raised by `ask_question_structured` always carry the
`"Ollama error: "` wrapping, hence are non-empty. -/
theorem askQuestionStructured_error_ne_empty (client : LLMClient)
    (document_text question : String) (model : Option String) (e : String) :
    askQuestionStructured client document_text question model = .error e → e ≠ "" := by
  intro he
  unfold askQuestionStructured at he
  dsimp only at he
  cases h : client.ollamaRun (model.getD "gemma2:2b")
      (structuredPromptLLM document_text question) with
  | error msg =>
    rw [h] at he
    simp only [Except.error.injEq] at he
    subst he
    intro habs
    have h2 : ("Ollama error: " ++ msg).data = ("" : String).data := by rw [habs]
    simp [String.data_append] at h2
  | ok v =>
    obtain ⟨rc, out, errOut⟩ := v
    rw [h] at he
    dsimp only at he
    by_cases hrc : rc = 0
    · simp [hrc] at he
    · rw [if_pos hrc] at he
      simp only [Except.error.injEq] at he
      subst he
      intro habs
      have h2 : ("Ollama error: " ++ ("Ollama command failed: " ++ pyStrip errOut)).data
          = ("" : String).data := by rw [habs]
      simp [String.data_append] at h2

theorem mem_processQuestionsBatchAux (client : LLMClient)
    (document_text document_name : String) (model : Option String) :
    ∀ (i : Nat) (qs : List String) (r : QAResult),
      r ∈ processQuestionsBatchAux client document_text document_name model i qs →
      ∃ question j, r = processPair client document_text question j document_name model := by
  intro i qs
  induction qs generalizing i with
  | nil => intro r hr; simp [processQuestionsBatchAux] at hr
  | cons q rest ih =>
    intro r hr
    simp only [processQuestionsBatchAux, List.mem_cons] at hr
    rcases hr with hr | hr
    · exact ⟨q, i, hr⟩
    · exact ih (i + 1) r hr

theorem mem_processMultipleDocumentsBatch (client : LLMClient)
    (questions : List String) (model : Option String) :
    ∀ (documents : List DocumentData) (r : QAResult),
      r ∈ processMultipleDocumentsBatch client documents questions model →
      ∃ doc question j, doc ∈ documents ∧
        r = processPair client doc.text_content question j doc.file_name model := by
  intro documents
  induction documents with
  | nil => intro r hr; simp [processMultipleDocumentsBatch] at hr
  | cons doc0 rest ih =>
    intro r hr
    simp only [processMultipleDocumentsBatch, List.mem_append] at hr
    rcases hr with hr | hr
    · rcases mem_processQuestionsBatchAux client doc0.text_content doc0.file_name model
        1 questions r hr with ⟨question, j, hrj⟩
      exact ⟨doc0, question, j, List.mem_cons_self _ _, hrj⟩
    · rcases ih r hr with ⟨doc, question, j, hmem, hrj⟩
      exact ⟨doc, question, j, List.mem_cons_of_mem _ hmem, hrj⟩

/-- If every subprocess invocation fails, every `ask_question_structured`
call raises. -/
theorem askQuestionStructured_error_of_backend_down (client : LLMClient)
    (hdown : ∀ m p, ∃ e, client.ollamaRun m p = .error e)
    (document_text question : String) (model : Option String) :
    ∃ e, askQuestionStructured client document_text question model = .error e := by
  rcases hdown (model.getD "gemma2:2b") (structuredPromptLLM document_text question)
    with ⟨e, he⟩
  refine ⟨"Ollama error: " ++ e, ?_⟩
  unfold askQuestionStructured
  dsimp only
  rw [he]

/-! ## Concrete fixtures used by witnesses and counterexamples -/

/-- An `LLMClient` whose `ollama` subprocess can never be spawned: an
unusable/unreachable backend. -/
def failingOllama : LLMClient :=
  { ollamaRun := fun _ _ => .error "ollama binary not found", provider := "ollama" }

/-- An `LLMClient` whose subprocess always succeeds and prints a fixed
answer. -/
def echoOllama : LLMClient :=
  { ollamaRun := fun _ _ => .ok (0, "Test answer", ""), provider := "ollama" }

/-- A processed-document dictionary fixture. -/
def sampleDoc : DocumentData :=
  { file_path := "documents/a.pdf", file_name := "a.pdf", file_extension := ".pdf",
    text_content := "Hello world", word_count := 2, char_count := 11,
    from_cache := false, file_hash := "h1" }

/-- A second document fixture. -/
def sampleDoc2 : DocumentData :=
  { file_path := "documents/b.pdf", file_name := "b.pdf", file_extension := ".pdf",
    text_content := "Other text", word_count := 2, char_count := 10,
    from_cache := false, file_hash := "h2" }

/-! ## Claims C1, C2 and C9: the batch orchestrator -/

/-- Claim C1: for every document list, question list and model, the batch
run returns one result per (document, question) pair; a pair on which the
answering backend raises yields a result with `status = "error"`, no
answer, and the non-empty exception text as its error message, while every
other pair yields `status = "success"`.  The embedding of
`process_multiple_documents_batch` is a total function for an arbitrary
(even always-failing) backend, which is the form the source's per-pair
`try`/`except` takes here: no exception escapes the batch operation. -/
theorem c1_per_pair_failure_isolation (client : LLMClient)
    (documents : List DocumentData) (questions : List String)
    (model : Option String) :
    (processMultipleDocumentsBatch client documents questions model).length
      = documents.length * questions.length ∧
    ∀ (d q : Nat) (doc : DocumentData) (question : String),
      documents[d]? = some doc → questions[q]? = some question →
      ∃ r, (processMultipleDocumentsBatch client documents questions model)[d * questions.length + q]?
          = some r ∧
        (∀ a, askQuestionStructured client doc.text_content question model = .ok a →
          r.status = "success" ∧ r.error = none ∧
          r.answer = some (formatAnswerForCsv a.answer)) ∧
        (∀ e, askQuestionStructured client doc.text_content question model = .error e →
          r.status = "error" ∧ r.answer = none ∧ r.error = some e ∧ e ≠ "") := by
  refine ⟨processMultipleDocumentsBatch_length client questions model documents, ?_⟩
  intro d q doc question hd hq
  refine ⟨processPair client doc.text_content question (q + 1) doc.file_name model,
    processMultipleDocumentsBatch_getElem? client questions model documents d q doc question hd hq,
    ?_, ?_⟩
  · intro a ha
    simp [processPair, ha]
  · intro e he
    refine ?_
    have hne := askQuestionStructured_error_ne_empty client doc.text_content question model e he
    simp [processPair, he, hne]

/-- Witness for C1 at a concrete input: one document, one question, a
backend that fails on the pair. -/
theorem c1_per_pair_failure_isolation_witness :
    ∃ r, (processMultipleDocumentsBatch failingOllama [sampleDoc] ["What is this?"] none)[0 * (["What is this?"] : List String).length + 0]?
        = some r ∧
      (∀ a, askQuestionStructured failingOllama sampleDoc.text_content "What is this?" none = .ok a →
        r.status = "success" ∧ r.error = none ∧
        r.answer = some (formatAnswerForCsv a.answer)) ∧
      (∀ e, askQuestionStructured failingOllama sampleDoc.text_content "What is this?" none = .error e →
        r.status = "error" ∧ r.answer = none ∧ r.error = some e ∧ e ≠ "") :=
  (c1_per_pair_failure_isolation failingOllama [sampleDoc] ["What is this?"] none).2
    0 0 sampleDoc "What is this?" rfl rfl

/-- Claim C2: the batch over N documents and M questions yields exactly
N×M results; the result at flat position `d·M + q` belongs to the `d`-th
input document and carries `question_number = q + 1` for the `q`-th input
question — documents in input order, question numbers ascending 1..M in
input-question order within each document. -/
theorem c2_cross_product_count_and_order (client : LLMClient)
    (documents : List DocumentData) (questions : List String)
    (model : Option String) :
    (processMultipleDocumentsBatch client documents questions model).length
      = documents.length * questions.length ∧
    ∀ (d q : Nat) (doc : DocumentData) (question : String),
      documents[d]? = some doc → questions[q]? = some question →
      ∃ r, (processMultipleDocumentsBatch client documents questions model)[d * questions.length + q]?
          = some r ∧
        r.document_name = doc.file_name ∧
        r.question_number = q + 1 ∧
        r.question = question := by
  refine ⟨processMultipleDocumentsBatch_length client questions model documents, ?_⟩
  intro d q doc question hd hq
  refine ⟨processPair client doc.text_content question (q + 1) doc.file_name model,
    processMultipleDocumentsBatch_getElem? client questions model documents d q doc question hd hq,
    ?_, ?_, ?_⟩ <;>
    cases haq : askQuestionStructured client doc.text_content question model <;>
      simp [processPair, haq]

/-- Witness for C2: two documents × two questions, checking the last flat
position `1·2 + 1 = 3`. -/
theorem c2_cross_product_count_and_order_witness :
    ∃ r, (processMultipleDocumentsBatch echoOllama [sampleDoc, sampleDoc2] ["Q1", "Q2"] none)[1 * (["Q1", "Q2"] : List String).length + 1]?
        = some r ∧
      r.document_name = sampleDoc2.file_name ∧
      r.question_number = 1 + 1 ∧
      r.question = "Q2" :=
  (c2_cross_product_count_and_order echoOllama [sampleDoc, sampleDoc2] ["Q1", "Q2"] none).2
    1 1 sampleDoc2 "Q2" rfl rfl

/-- Counterexample to claim C9 as stated: the claim requires the batch run
to fail as a whole, with zero partial results, when the backend is
unusable before any pair is attempted, or when the document list is empty.
The code has no pre-flight checks: with an unusable backend and one
document × one question it completes normally and returns one result (with
`status = "error"`), not zero; with an empty document list it completes
normally and returns the empty list instead of failing. -/
theorem c9_counterexample :
    (processMultipleDocumentsBatch failingOllama [sampleDoc] ["What is this?"] none).map
        (fun r => (r.status, r.error))
      = [("error", some "Ollama error: ollama binary not found")] ∧
    processMultipleDocumentsBatch failingOllama [] ["What is this?"] none = [] := by
  constructor
  · decide
  · decide

/-- Claim C9, amended: the batch run never fails as a whole.  It always
returns `N×M` results; empty document or question lists yield the empty
result list (a normal return, not a failure); and an unusable backend
(every subprocess invocation failing) yields one `status = "error"` result
per pair rather than aborting. -/
theorem c9_amended_no_whole_batch_failure (client : LLMClient)
    (documents : List DocumentData) (questions : List String)
    (model : Option String) :
    (processMultipleDocumentsBatch client documents questions model).length
      = documents.length * questions.length ∧
    (documents = [] → processMultipleDocumentsBatch client documents questions model = []) ∧
    (questions = [] → processMultipleDocumentsBatch client documents questions model = []) ∧
    ((∀ m p, ∃ e, client.ollamaRun m p = .error e) →
      ∀ r ∈ processMultipleDocumentsBatch client documents questions model,
        r.status = "error") := by
  refine ⟨processMultipleDocumentsBatch_length client questions model documents, ?_, ?_, ?_⟩
  · intro h; subst h; rfl
  · intro h
    subst h
    induction documents with
    | nil => rfl
    | cons doc rest ih =>
      simp only [processMultipleDocumentsBatch, ih]
      rfl
  · intro hdown r hr
    rcases mem_processMultipleDocumentsBatch client questions model documents r hr
      with ⟨doc, question, j, _, hrj⟩
    rcases askQuestionStructured_error_of_backend_down client hdown doc.text_content
      question model with ⟨e, he⟩
    subst hrj
    simp [processPair, he]

/-- Witness for C9 (amended) at a concrete input: an unusable backend with
one document and one question. -/
theorem c9_amended_no_whole_batch_failure_witness :
    (processMultipleDocumentsBatch failingOllama [] ["What is this?"] none = []) ∧
    (∀ r ∈ processMultipleDocumentsBatch failingOllama [sampleDoc] ["What is this?"] none,
      r.status = "error") :=
  ⟨(c9_amended_no_whole_batch_failure failingOllama [] ["What is this?"] none).2.1 rfl,
   (c9_amended_no_whole_batch_failure failingOllama [sampleDoc] ["What is this?"] none).2.2.2
     (fun _ _ => ⟨"ollama binary not found", rfl⟩)⟩

/-! ## Correctness of the CSV writer's format: the strict parser inverts it -/

theorem escQ_nil : escQ [] = [] := rfl

theorem escQ_cons_quote (s : List Char) : escQ ('"' :: s) = '"' :: '"' :: escQ s := by
  simp [escQ]

theorem escQ_cons_other (c : Char) (s : List Char) (h : c ≠ '"') :
    escQ (c :: s) = c :: escQ s := by
  simp [escQ, h]

theorem parseQuotedF_escQ :
    ∀ (s : List Char) (fuel : Nat) (rest : List Char),
      (escQ s).length < fuel →
      (∀ c t, rest = c :: t → c ≠ '"') →
      parseQuotedF fuel (escQ s ++ '"' :: rest) = some (s, rest) := by
  intro s
  induction s with
  | nil =>
    intro fuel rest hfuel hrest
    cases fuel with
    | zero => simp [escQ_nil] at hfuel
    | succ f =>
      rw [escQ_nil, List.nil_append]
      unfold parseQuotedF
      rw [if_pos rfl]
      cases rest with
      | nil => rfl
      | cons c t =>
        have hc := hrest c t rfl
        dsimp only
        rw [if_neg hc]
  | cons a s' ih =>
    intro fuel rest hfuel hrest
    by_cases ha : a = '"'
    · subst ha
      rw [escQ_cons_quote] at hfuel ⊢
      cases fuel with
      | zero => omega
      | succ f =>
        simp only [List.cons_append]
        unfold parseQuotedF
        rw [if_pos rfl]
        dsimp only
        rw [if_pos rfl]
        have hih := ih f rest (by simp only [List.length_cons] at hfuel; omega) hrest
        rw [hih]
        rfl
    · rw [escQ_cons_other a s' ha] at hfuel ⊢
      cases fuel with
      | zero => omega
      | succ f =>
        simp only [List.cons_append]
        unfold parseQuotedF
        rw [if_neg ha]
        have hih := ih f rest (by simp only [List.length_cons] at hfuel; omega) hrest
        rw [hih]
        rfl

theorem parseRecordF_csvRowC :
    ∀ (fs : List (List Char)) (fuel : Nat) (rest : List Char),
      fs ≠ [] →
      (csvRowC fs).length ≤ fuel →
      parseRecordF fuel (csvRowC fs ++ rest) = some (fs, rest) := by
  intro fs
  induction fs with
  | nil => intro fuel rest h; exact absurd rfl h
  | cons f fs' ih =>
    intro fuel rest _ hfuel
    cases fs' with
    | nil =>
      have hlen : (csvRowC [f]).length = (escQ f).length + 4 := by
        simp [csvRowC, sepFields, quoteField, List.length_append]
      cases fuel with
      | zero => omega
      | succ g =>
        have hshape : csvRowC [f] ++ rest
            = '"' :: (escQ f ++ '"' :: ('\r' :: '\n' :: rest)) := by
          simp [csvRowC, sepFields, quoteField, List.append_assoc]
        rw [hshape]
        unfold parseRecordF
        rw [if_pos rfl]
        have hq : parseQuotedF g (escQ f ++ '"' :: ('\r' :: '\n' :: rest))
            = some (f, '\r' :: '\n' :: rest) := by
          apply parseQuotedF_escQ
          · omega
          · intro c t hct hc
            rw [hc] at hct
            exact absurd (List.head_eq_of_cons_eq hct) (by decide)
        rw [hq]
        dsimp only
        rw [if_neg (by decide : ¬ ('\r' : Char) = ','), if_pos rfl, if_pos rfl]
    | cons g' t' =>
      have hlen : (csvRowC (f :: g' :: t')).length
          = (escQ f).length + 3 + (sepFields (g' :: t')).length + 2 := by
        simp [csvRowC, sepFields, quoteField, List.length_append]
        omega
      cases fuel with
      | zero => omega
      | succ g =>
        have hshape : csvRowC (f :: g' :: t') ++ rest
            = '"' :: (escQ f ++ '"' :: (',' :: (csvRowC (g' :: t') ++ rest))) := by
          simp [csvRowC, sepFields, quoteField, List.append_assoc]
        rw [hshape]
        unfold parseRecordF
        rw [if_pos rfl]
        have hq : parseQuotedF g (escQ f ++ '"' :: (',' :: (csvRowC (g' :: t') ++ rest)))
            = some (f, ',' :: (csvRowC (g' :: t') ++ rest)) := by
          apply parseQuotedF_escQ
          · omega
          · intro c t hct hc
            rw [hc] at hct
            exact absurd (List.head_eq_of_cons_eq hct) (by decide)
        rw [hq]
        dsimp only
        rw [if_pos rfl]
        have hrec : parseRecordF g (csvRowC (g' :: t') ++ rest) = some (g' :: t', rest) := by
          apply ih
          · simp
          · have : (csvRowC (g' :: t')).length = (sepFields (g' :: t')).length + 2 := by
              simp [csvRowC, List.length_append]
            omega
        rw [hrec]

theorem csvRowC_cons_shape (f : List Char) (fs : List (List Char)) (rest : List Char) :
    ∃ t, csvRowC (f :: fs) ++ rest = '"' :: t := by
  cases fs with
  | nil => exact ⟨escQ f ++ '"' :: ('\r' :: '\n' :: rest), by
      simp [csvRowC, sepFields, quoteField, List.append_assoc]⟩
  | cons g' t' => exact ⟨escQ f ++ '"' :: (',' :: (csvRowC (g' :: t') ++ rest)), by
      simp [csvRowC, sepFields, quoteField, List.append_assoc]⟩

theorem parseRowsF_flatten :
    ∀ (rows : List (List (List Char))) (fuel : Nat),
      (∀ r ∈ rows, r ≠ []) →
      (List.flatten (rows.map csvRowC)).length < fuel →
      parseRowsF fuel (List.flatten (rows.map csvRowC)) = some rows := by
  intro rows
  induction rows with
  | nil =>
    intro fuel _ hfuel
    cases fuel with
    | zero => simp at hfuel
    | succ f => simp [parseRowsF]
  | cons r rows' ih =>
    intro fuel hne hfuel
    have hr : r ≠ [] := hne r (List.mem_cons_self _ _)
    rcases r with _ | ⟨f, fs⟩
    · exact absurd rfl hr
    simp only [List.map_cons, List.flatten_cons] at hfuel ⊢
    cases fuel with
    | zero => simp [List.length_append] at hfuel
    | succ g =>
      rcases csvRowC_cons_shape f fs (List.flatten (rows'.map csvRowC)) with ⟨t, ht⟩
      rw [ht]
      unfold parseRowsF
      rw [← ht]
      have hrowlen : 2 ≤ (csvRowC (f :: fs)).length := by
        simp [csvRowC, List.length_append]
      have hrec : parseRecordF (g + 1) (csvRowC (f :: fs) ++ List.flatten (rows'.map csvRowC))
          = some (f :: fs, List.flatten (rows'.map csvRowC)) := by
        apply parseRecordF_csvRowC
        · simp
        · simp only [List.length_append] at hfuel
          omega
      rw [hrec]
      have hih : parseRowsF g (List.flatten (rows'.map csvRowC)) = some rows' := by
        apply ih
        · intro x hx; exact hne x (List.mem_cons_of_mem _ hx)
        · simp only [List.length_append] at hfuel
          omega
      dsimp only
      rw [hih]

/-- A concrete successful Q&A result fixture. -/
def sampleResult : QAResult :=
  { document_name := "a.pdf", question_number := 1, question := "What is this?",
    answer := some "Test answer", model := some "gemma2:2b", provider := "ollama",
    status := "success", error := none }

/-! ## Claims C6 and C7: the CSV exporter -/

/-- Claim C6: for a non-empty result list the export succeeds and the
artifact at the output path is exactly the content whose strict parse — a
parser that accepts only fully quoted fields, so a successful parse
certifies that every header and data field is quoted — returns the header
row `document_name,question_number,question,answer,model,provider,status,error`
followed by exactly one data row per result, in input order. -/
theorem c6_csv_artifact_format (results : List QAResult) (output_path : String)
    (fs : List (String × List Char)) (h : results ≠ []) :
    (exportToCsvFS results output_path none fs).2 = .ok output_path ∧
    alookup (exportToCsvFS results output_path none fs).1 output_path
      = some (exportContentC results) ∧
    parseCsvC (exportContentC results)
      = some ((headerFieldNames.map String.data)
          :: results.map (fun r => (recordFields r).map String.data)) := by
  refine ⟨?_, ?_, ?_⟩
  · simp [exportToCsvFS, h]
  · simp [exportToCsvFS, h, alookup, exportContentC]
  · unfold parseCsvC exportContentC
    have hne : ∀ r ∈ rowsOf results, r ≠ [] := by
      intro r hr
      simp only [rowsOf, List.mem_cons, List.mem_map] at hr
      rcases hr with hr | ⟨x, _, hx⟩
      · subst hr; simp [headerFieldNames]
      · rw [← hx]; simp [recordFields]
    rw [parseRowsF_flatten (rowsOf results) _ hne (by omega)]
    rfl

/-- Witness for C6 at a concrete input: one success result exported to a
fresh filesystem. -/
theorem c6_csv_artifact_format_witness :
    (exportToCsvFS [sampleResult] "outputs/qa_results.csv" none []).2
      = .ok "outputs/qa_results.csv" ∧
    alookup (exportToCsvFS [sampleResult] "outputs/qa_results.csv" none []).1
        "outputs/qa_results.csv"
      = some (exportContentC [sampleResult]) ∧
    parseCsvC (exportContentC [sampleResult])
      = some ((headerFieldNames.map String.data)
          :: [sampleResult].map (fun r => (recordFields r).map String.data)) :=
  c6_csv_artifact_format [sampleResult] "outputs/qa_results.csv" [] (by simp)

/-- Counterexample to claim C7 as stated: `export_to_csv` opens the output
path directly and writes into it — there is no temporary file and no final
rename.  With one result and an I/O failure injected after the first row
write, the call reports an error *and* leaves a partial artifact (the
header row only) at the output path, which the claim forbids. -/
theorem c7_counterexample_partial_artifact :
    (exportToCsvFS [sampleResult] "outputs/qa_results.csv" (some 1) []).2
      = .error "I/O error while writing" ∧
    alookup (exportToCsvFS [sampleResult] "outputs/qa_results.csv" (some 1) []).1
        "outputs/qa_results.csv"
      = some (csvRowC (headerFieldNames.map String.data)) ∧
    csvRowC (headerFieldNames.map String.data) ≠ exportContentC [sampleResult] := by
  refine ⟨by rfl, by decide, by decide⟩

/-- Claim C7, amended: the export is not atomic.  When every write
succeeds, the complete artifact is at the output path; but when a write
fails after `k` rows, an error is reported to the caller *and* the `k`
rows already written remain at the output path as a partial artifact
(rather than no artifact being left, as atomicity would require). -/
theorem c7_amended_export_not_atomic (results : List QAResult) (output_path : String)
    (fs : List (String × List Char)) (k : Nat) (h : results ≠ [])
    (hk : k < (rowsOf results).length) :
    ((exportToCsvFS results output_path none fs).2 = .ok output_path ∧
      alookup (exportToCsvFS results output_path none fs).1 output_path
        = some (exportContentC results)) ∧
    ((exportToCsvFS results output_path (some k) fs).2 = .error "I/O error while writing" ∧
      alookup (exportToCsvFS results output_path (some k) fs).1 output_path
        = some (List.flatten (((rowsOf results).map csvRowC).take k))) := by
  refine ⟨⟨?_, ?_⟩, ⟨?_, ?_⟩⟩
  · simp [exportToCsvFS, h]
  · simp [exportToCsvFS, h, alookup, exportContentC]
  · simp [exportToCsvFS, h, hk]
  · simp [exportToCsvFS, h, hk, alookup]

/-- Witness for C7 (amended) at a concrete input: failure after one row
write leaves exactly the header row. -/
theorem c7_amended_export_not_atomic_witness :
    ((exportToCsvFS [sampleResult] "outputs/qa_results.csv" none []).2
        = .ok "outputs/qa_results.csv" ∧
      alookup (exportToCsvFS [sampleResult] "outputs/qa_results.csv" none []).1
          "outputs/qa_results.csv"
        = some (exportContentC [sampleResult])) ∧
    ((exportToCsvFS [sampleResult] "outputs/qa_results.csv" (some 1) []).2
        = .error "I/O error while writing" ∧
      alookup (exportToCsvFS [sampleResult] "outputs/qa_results.csv" (some 1) []).1
          "outputs/qa_results.csv"
        = some (List.flatten ((((rowsOf [sampleResult]).map csvRowC)).take 1))) :=
  c7_amended_export_not_atomic [sampleResult] "outputs/qa_results.csv" [] 1
    (by simp) (by simp [rowsOf])

/-! ## Lemmas about the answer normalisation (claim C8) -/

theorem mem_replaceDD {c : Char} : ∀ l : List Char, c ∈ replaceDD l → c ∈ l := by
  intro l
  induction l using replaceDD.induct with
  | case1 => simp [replaceDD]
  | case2 d => simp [replaceDD]
  | case3 a d rest hcd ih =>
    intro h
    rw [replaceDD, if_pos hcd] at h
    obtain ⟨ha, hd⟩ := hcd
    subst ha
    subst hd
    rcases List.mem_cons.mp h with h | h
    · subst h; exact List.mem_cons_self _ _
    · exact List.mem_cons_of_mem _ (List.mem_cons_of_mem _ (ih h))
  | case4 a d rest hcd ih =>
    intro h
    rw [replaceDD, if_neg hcd] at h
    rcases List.mem_cons.mp h with h | h
    · subst h; exact List.mem_cons_self _ _
    · exact List.mem_cons_of_mem _ (ih h)

theorem mem_collapseLoopF {c : Char} :
    ∀ (fuel : Nat) (l : List Char), c ∈ collapseLoopF fuel l → c ∈ l := by
  intro fuel
  induction fuel with
  | zero => intro l h; exact h
  | succ n ih =>
    intro l h
    rw [collapseLoopF] at h
    by_cases hdd : hasDD l
    · rw [if_pos hdd] at h
      exact mem_replaceDD l (ih _ h)
    · rwa [if_neg hdd] at h

theorem mem_pyStripC {c : Char} (l : List Char) : c ∈ pyStripC l → c ∈ l := by
  intro h
  unfold pyStripC at h
  rw [List.mem_reverse] at h
  have h2 : c ∈ (l.dropWhile isPyWs).reverse := (List.dropWhile_sublist _).subset h
  rw [List.mem_reverse] at h2
  exact (List.dropWhile_sublist _).subset h2

theorem mem_joinSep {c : Char} :
    ∀ ls : List (List Char), c ∈ joinSep ls → c = ' ' ∨ ∃ li ∈ ls, c ∈ li := by
  intro ls
  induction ls using joinSep.induct with
  | case1 => simp [joinSep]
  | case2 l => intro h; exact Or.inr ⟨l, List.mem_cons_self _ _, h⟩
  | case3 l l2 hne ih =>
    intro h
    cases l2 with
    | nil => exact absurd rfl hne
    | cons l3 ls3 =>
      rw [show joinSep (l :: l3 :: ls3) = l ++ ' ' :: joinSep (l3 :: ls3) from rfl] at h
      rcases List.mem_append.mp h with h | h
      · exact Or.inr ⟨l, List.mem_cons_self _ _, h⟩
      · rcases List.mem_cons.mp h with h | h
        · exact Or.inl h
        · rcases ih h with h | ⟨li, hmem, hc⟩
          · exact Or.inl h
          · exact Or.inr ⟨li, List.mem_cons_of_mem _ hmem, hc⟩

theorem pySplitNl_no_nl : ∀ (l : List Char) (li : List Char),
    li ∈ pySplitNl l → '\n' ∉ li := by
  intro l
  induction l with
  | nil =>
    intro li hli
    simp only [pySplitNl, List.mem_singleton] at hli
    subst hli
    simp
  | cons c rest ih =>
    intro li hli
    by_cases hc : c = '\n'
    · rw [pySplitNl, if_pos hc] at hli
      rcases List.mem_cons.mp hli with h | h
      · subst h; simp
      · exact ih li h
    · rw [pySplitNl, if_neg hc] at hli
      cases hsplit : pySplitNl rest with
      | nil =>
        rw [hsplit] at hli
        simp only [List.mem_singleton] at hli
        subst hli
        intro habs
        rcases List.mem_singleton.mp habs with h
        exact hc h.symm
      | cons l0 ls =>
        rw [hsplit] at hli
        rcases List.mem_cons.mp hli with h | h
        · subst h
          intro habs
          rcases List.mem_cons.mp habs with h | h
          · exact hc h.symm
          · exact ih l0 (hsplit ▸ List.mem_cons_self _ _) h
        · exact ih li (hsplit ▸ List.mem_cons_of_mem _ h)

theorem no_nl_formatAnswerForCsvC (answer : List Char) :
    '\n' ∉ formatAnswerForCsvC answer := by
  unfold formatAnswerForCsvC
  by_cases ha : answer = []
  · simp [ha]
  · rw [if_neg ha]
    intro h
    have h1 := mem_pyStripC _ h
    have h2 := mem_collapseLoopF _ _ h1
    rcases mem_joinSep _ h2 with h3 | ⟨li, hmem, hc⟩
    · exact absurd h3 (by decide)
    · have hmem2 := List.mem_of_mem_filter hmem
      rcases List.mem_map.mp hmem2 with ⟨l0, hl0, hstrip⟩
      rw [← hstrip] at hc
      exact pySplitNl_no_nl answer l0 hl0 (mem_pyStripC _ hc)

theorem hasDD_iff_parts : ∀ l : List Char,
    hasDD l = true ↔ ∃ x y, l = x ++ ' ' :: ' ' :: y := by
  intro l
  constructor
  · induction l using hasDD.induct with
    | case1 => simp [hasDD]
    | case2 d => simp [hasDD]
    | case3 c d rest ih =>
      intro h
      simp only [hasDD, Bool.or_eq_true, Bool.and_eq_true, decide_eq_true_eq] at h
      rcases h with ⟨h1, h2⟩ | h
      · subst h1; subst h2; exact ⟨[], rest, rfl⟩
      · rcases ih h with ⟨x, y, hxy⟩
        exact ⟨c :: x, y, by rw [List.cons_append, ← hxy]⟩
  · rintro ⟨x, y, rfl⟩
    induction x with
    | nil => simp [hasDD]
    | cons a x' ih =>
      rw [List.cons_append]
      cases hx : x' ++ ' ' :: ' ' :: y with
      | nil => exact absurd hx (by simp)
      | cons b t =>
        rw [hx] at ih
        simp only [hasDD, Bool.or_eq_true]
        exact Or.inr ih

theorem pyStripC_is_infix (l : List Char) :
    ∃ u v, l = u ++ pyStripC l ++ v := by
  refine ⟨l.takeWhile isPyWs,
    ((l.dropWhile isPyWs).reverse.takeWhile isPyWs).reverse, ?_⟩
  conv_lhs => rw [← List.takeWhile_append_dropWhile (p := isPyWs) (l := l)]
  rw [List.append_assoc]
  congr 1
  conv_lhs => rw [← List.reverse_reverse (l.dropWhile isPyWs)]
  conv_lhs => rw [← List.takeWhile_append_dropWhile (p := isPyWs)
    (l := (l.dropWhile isPyWs).reverse)]
  rw [List.reverse_append]
  rfl

theorem hasDD_of_pyStripC (l : List Char) :
    hasDD (pyStripC l) = true → hasDD l = true := by
  intro h
  rcases (hasDD_iff_parts _).mp h with ⟨x, y, hxy⟩
  rcases pyStripC_is_infix l with ⟨u, v, hl⟩
  rw [hxy] at hl
  apply (hasDD_iff_parts l).mpr
  exact ⟨u ++ x, y ++ v, by rw [hl]; simp [List.append_assoc]⟩

theorem hasDD_formatAnswerForCsvC (answer : List Char) :
    hasDD (formatAnswerForCsvC answer) = false := by
  unfold formatAnswerForCsvC
  by_cases ha : answer = []
  · simp [ha, hasDD]
  · rw [if_neg ha]
    by_contra h
    rw [Bool.not_eq_false] at h
    have h2 := hasDD_of_pyStripC _ h
    rw [hasDD_collapseLoop] at h2
    exact Bool.false_ne_true h2

theorem head?_dropWhile_not (p : Char → Bool) :
    ∀ (l : List Char) (c : Char), (l.dropWhile p).head? = some c → p c = false := by
  intro l
  induction l with
  | nil => intro c h; simp [List.dropWhile] at h
  | cons a t ih =>
    intro c h
    rw [List.dropWhile_cons] at h
    by_cases hp : p a
    · rw [if_pos hp] at h
      exact ih c h
    · rw [if_neg hp] at h
      simp only [List.head?_cons, Option.some.injEq] at h
      subst h
      exact Bool.not_eq_true _ |>.mp hp

theorem pyStripC_head_not_ws (l : List Char) (c : Char) :
    (pyStripC l).head? = some c → isPyWs c = false := by
  intro h
  unfold pyStripC at h
  rw [List.head?_reverse] at h
  set B := (l.dropWhile isPyWs).reverse.dropWhile isPyWs with hB
  have hBne : B ≠ [] := by
    intro habs
    rw [habs] at h
    simp at h
  have hsplit : (l.dropWhile isPyWs).reverse.takeWhile isPyWs ++ B
      = (l.dropWhile isPyWs).reverse := List.takeWhile_append_dropWhile _ _
  have hlast : B.getLast? = ((l.dropWhile isPyWs).reverse).getLast? := by
    rw [← hsplit]
    exact (List.getLast?_append_of_ne_nil _ hBne).symm
  rw [hlast, List.getLast?_reverse] at h
  exact head?_dropWhile_not isPyWs l c h

theorem pyStripC_getLast_not_ws (l : List Char) (c : Char) :
    (pyStripC l).getLast? = some c → isPyWs c = false := by
  intro h
  unfold pyStripC at h
  rw [List.getLast?_reverse] at h
  exact head?_dropWhile_not isPyWs _ c h

/-! ## Claim C8: answer normalisation -/

/-- Counterexample to claim C8 as stated: the claim requires every run of
whitespace to collapse to one space, but `_format_answer_for_csv` only
collapses runs of *space characters* (the `'  ' → ' '` replacement loop);
a run of tabs inside a line survives untouched: `"a\t\tb"` is returned
unchanged instead of becoming `"a b"`. -/
theorem c8_counterexample_tab_run :
    formatAnswerForCsv "a\t\tb" = "a\t\tb" ∧ formatAnswerForCsv "a\t\tb" ≠ "a b" :=
  ⟨by decide, by decide⟩

/-- Claim C8, amended: the normalisation collapses line breaks into
single-space-joined text (no newline survives), collapses every run of
*space* characters to one space (no two adjacent spaces survive), and trims
leading/trailing whitespace (the first and last character of the output are
never whitespace); runs of whitespace containing non-space characters such
as tabs inside a line are not collapsed.  In particular the input
`"Line one\n\nLine two  with   extra spaces\n"` normalises to
`"Line one Line two with extra spaces"`. -/
theorem c8_amended_normalization :
    formatAnswerForCsv "Line one\n\nLine two  with   extra spaces\n"
      = "Line one Line two with extra spaces" ∧
    ∀ answer : String,
      '\n' ∉ (formatAnswerForCsv answer).data ∧
      hasDD (formatAnswerForCsv answer).data = false ∧
      (∀ c, (formatAnswerForCsv answer).data.head? = some c → isPyWs c = false) ∧
      (∀ c, (formatAnswerForCsv answer).data.getLast? = some c → isPyWs c = false) := by
  refine ⟨by decide, ?_⟩
  intro answer
  have hdata : (formatAnswerForCsv answer).data = formatAnswerForCsvC answer.data := rfl
  refine ⟨?_, ?_, ?_, ?_⟩
  · rw [hdata]; exact no_nl_formatAnswerForCsvC answer.data
  · rw [hdata]; exact hasDD_formatAnswerForCsvC answer.data
  · intro c hc
    rw [hdata] at hc
    unfold formatAnswerForCsvC at hc
    by_cases ha : answer.data = []
    · rw [if_pos ha] at hc; simp at hc
    · rw [if_neg ha] at hc
      exact pyStripC_head_not_ws _ c hc
  · intro c hc
    rw [hdata] at hc
    unfold formatAnswerForCsvC at hc
    by_cases ha : answer.data = []
    · rw [if_pos ha] at hc; simp at hc
    · rw [if_neg ha] at hc
      exact pyStripC_getLast_not_ws _ c hc

/-- Witness for C8 (amended) at a concrete input. -/
theorem c8_amended_normalization_witness :
    hasDD (formatAnswerForCsv " x \t y  z ").data = false ∧ isPyWs 'x' = false :=
  ⟨((c8_amended_normalization).2 " x \t y  z ").2.1,
   ((c8_amended_normalization).2 " x \t y  z ").2.2.1 'x' (by decide)⟩

/-! ## Lemmas about the extraction cache -/

theorem univNewlinesC_cons_of_ne (c : Char) (rest : List Char) (hc : c ≠ '\r') :
    univNewlinesC (c :: rest) = c :: univNewlinesC rest := by
  rw [univNewlinesC.eq_def]
  split <;> simp_all

/-- Text without carriage returns survives the universal-newline read
translation unchanged. -/
theorem univNewlines_of_no_cr (s : String) (h : '\r' ∉ s.data) :
    univNewlines s = s := by
  have hC : ∀ l : List Char, '\r' ∉ l → univNewlinesC l = l := by
    intro l
    induction l with
    | nil => intro _; rfl
    | cons c rest ih =>
      intro hl
      have hc : c ≠ '\r' := fun habs => hl (habs ▸ List.mem_cons_self _ _)
      have hrest : '\r' ∉ rest := fun habs => hl (List.mem_cons_of_mem _ habs)
      rw [univNewlinesC_cons_of_ne c rest hc, ih hrest]
  show String.mk (univNewlinesC s.data) = s
  rw [hC s.data h]

theorem getCachedDocument_fst (st : CacheState) (file_hash : String) :
    (getCachedDocument st file_hash).1 = st := by
  unfold getCachedDocument
  cases h1 : alookup st.cache_index file_hash with
  | none => rfl
  | some e =>
    cases h2 : alookup st.files (textPathOf st file_hash) with
    | none => rfl
    | some raw => rfl

theorem getCachedDocument_from_cache (st : CacheState) (file_hash : String)
    (cd : DocumentData) :
    (getCachedDocument st file_hash).2 = some cd → cd.from_cache = true := by
  unfold getCachedDocument
  cases h1 : alookup st.cache_index file_hash with
  | none => intro h; simp at h
  | some e =>
    cases h2 : alookup st.files (textPathOf st file_hash) with
    | none => intro h; simp at h
    | some raw =>
      intro h
      simp only [Option.some.injEq] at h
      rw [← h]

/-! ## Claims C3, C4, C5 and C10: the extraction cache -/

/-- The empty cache state fixture. -/
def emptyCache : CacheState :=
  { cache_dir := "document_cache", cache_index := [], files := [],
    durable_index := .parsed [] }

/-- A document whose extracted text contains a carriage return. -/
def crDoc : DocumentData :=
  { file_path := "documents/cr.pdf", file_name := "cr.pdf", file_extension := ".pdf",
    text_content := "a\rb", word_count := 1, char_count := 3,
    from_cache := false, file_hash := "hcr" }

/-- Counterexample to claim C3 as stated: the cache blob is written and
read in Python text mode without `newline=''`, so reading applies
universal-newline translation.  Storing text containing a carriage return
(`"a\rb"`) and looking it up returns `"a\nb"`, not the original text — the
round trip is not the identity on strings containing control characters. -/
theorem c3_counterexample_carriage_return :
    ((getCachedDocument (cacheDocument emptyCache .ok .ok "hcr" crDoc) "hcr").2).map
        (fun d => d.text_content) = some "a\nb" ∧
    ("a\nb" : String) ≠ "a\rb" :=
  ⟨by decide, by decide⟩

/-- Claim C3, amended: storing `(d, text, meta)` with both durable writes
succeeding and then looking `d` up is a cache hit returning the metadata
unchanged and the text with CR/CRLF sequences translated to LF by the
text-mode read; for text containing no carriage return — including the
empty string, long strings and strings with other control characters —
the text is returned exactly unchanged. -/
theorem c3_amended_cache_round_trip (st : CacheState) (file_hash : String)
    (d : DocumentData) :
    getCachedDocument (cacheDocument st .ok .ok file_hash d) file_hash
      = (cacheDocument st .ok .ok file_hash d,
         some { file_path := d.file_path, file_name := d.file_name,
                file_extension := d.file_extension,
                text_content := univNewlines d.text_content,
                word_count := d.word_count, char_count := d.char_count,
                from_cache := true, file_hash := file_hash }) ∧
    ('\r' ∉ d.text_content.data → univNewlines d.text_content = d.text_content) := by
  constructor
  · unfold cacheDocument getCachedDocument textPathOf entryOfDocument alookup
    simp
  · exact univNewlines_of_no_cr d.text_content

/-- Witness for C3 (amended) at a concrete input whose text has no
carriage return. -/
theorem c3_amended_cache_round_trip_witness :
    getCachedDocument (cacheDocument emptyCache .ok .ok "h1" sampleDoc) "h1"
      = (cacheDocument emptyCache .ok .ok "h1" sampleDoc,
         some { file_path := sampleDoc.file_path, file_name := sampleDoc.file_name,
                file_extension := sampleDoc.file_extension,
                text_content := univNewlines sampleDoc.text_content,
                word_count := sampleDoc.word_count, char_count := sampleDoc.char_count,
                from_cache := true, file_hash := "h1" }) ∧
    univNewlines sampleDoc.text_content = sampleDoc.text_content :=
  ⟨(c3_amended_cache_round_trip emptyCache "h1" sampleDoc).1,
   (c3_amended_cache_round_trip emptyCache "h1" sampleDoc).2 (by decide)⟩

/-- The index entry fixture matching `sampleDoc`. -/
def sampleEntry : CacheEntry :=
  { file_path := "documents/a.pdf", file_name := "a.pdf", file_extension := ".pdf",
    word_count := 2, char_count := 11 }

/-- A cache whose index holds an entry whose backing blob file is absent. -/
def danglingCache : CacheState :=
  { cache_dir := "document_cache", cache_index := [("h1", sampleEntry)],
    files := [], durable_index := .parsed [("h1", sampleEntry)] }

/-- A cache state holding a complete entry (index plus blob) for digest
`"h1"`, whose stored `file_path` is `"documents/a.pdf"`. -/
def hitCache : CacheState :=
  { cache_dir := "document_cache", cache_index := [("h1", sampleEntry)],
    files := [("document_cache/h1.txt", "Hello world")],
    durable_index := .parsed [("h1", sampleEntry)] }

/-- Counterexample to claim C4 as stated: on a dangling index entry the
lookup does return a miss without throwing, but `_get_cached_document`
contains no deletion of the entry — the claimed self-healing removal does
not happen: after the lookup the entry is still in the index. -/
theorem c4_counterexample_no_self_heal :
    (getCachedDocument danglingCache "h1").2 = none ∧
    alookup (getCachedDocument danglingCache "h1").1.cache_index "h1" = some sampleEntry :=
  ⟨by decide, by decide⟩

/-- Claim C4, amended: for an index entry whose backing blob is absent,
lookup returns a miss (not an error, no exception) and leaves the state —
in particular the dangling index entry — entirely unchanged; no
self-healing removal is performed. -/
theorem c4_amended_dangling_miss (st : CacheState) (file_hash : String)
    (e : CacheEntry)
    (hidx : alookup st.cache_index file_hash = some e)
    (hblob : alookup st.files (textPathOf st file_hash) = none) :
    getCachedDocument st file_hash = (st, none) := by
  unfold getCachedDocument
  rw [hidx, hblob]

/-- Witness for C4 (amended) at a concrete dangling state. -/
theorem c4_amended_dangling_miss_witness :
    getCachedDocument danglingCache "h1" = (danglingCache, none) :=
  c4_amended_dangling_miss danglingCache "h1" sampleEntry (by decide) (by decide)

/-- Counterexample to claim C5 as stated: when the blob write succeeds but
the durable index write fails partway, `_cache_document` has already
mutated the in-memory index, `_save_cache_index` swallows the failure
(printing a warning), and nothing is rolled back or reported: the method
returns normally with the in-memory index holding an entry while the
durable index file is left truncated — a later `_load_cache_index` parses
it as the empty index, so the in-memory index is inconsistent with what
was durably written. -/
theorem c5_counterexample_index_write_failure :
    (cacheDocument emptyCache .ok (.midFail 0) "h1" sampleDoc).cache_index
      = [("h1", entryOfDocument sampleDoc)] ∧
    (cacheDocument emptyCache .ok (.midFail 0) "h1" sampleDoc).durable_index
      = .corrupt ∧
    loadCacheIndex (cacheDocument emptyCache .ok (.midFail 0) "h1" sampleDoc).durable_index
      = [] :=
  ⟨by decide, by decide, by decide⟩

/-- Claim C5, amended: store failures are swallowed, not reported — the
embedding of `_cache_document` returns only the new state because the
Python method catches every exception and returns `None` to its caller in
all cases — and `open(..., 'w')` truncates its target before writing, so:
(1) if opening the blob file fails, the state is unchanged; (2) if the
blob write fails after `open`, a truncated blob (the characters written so
far) is left at the digest's path while the index mutation and save are
skipped — and for a digest that was already indexed, a subsequent lookup
serves this truncated blob as a (corrupt) hit; (3) if opening the index
file fails, the in-memory index is updated while the durable index file
keeps its previous (stale) content; (4) if the index write fails after
`open`, the in-memory index is updated while the durable index file is
left corrupt, which a later `_load_cache_index` reads as the empty index;
(5) only when both writes succeed does the durable index file match the
in-memory index.  Nothing is ever rolled back. -/
theorem c5_amended_store_failure_behaviour (st : CacheState) (file_hash : String)
    (d : DocumentData) (n : Nat) (iw : WriteOutcome) :
    (cacheDocument st .openFail iw file_hash d = st) ∧
    (cacheDocument st (.midFail n) iw file_hash d
        = { st with files :=
              (textPathOf st file_hash, ⟨d.text_content.data.take n⟩) :: st.files }) ∧
    (∀ e, alookup st.cache_index file_hash = some e →
      (getCachedDocument (cacheDocument st (.midFail n) iw file_hash d) file_hash).2
        = some { file_path := e.file_path, file_name := e.file_name,
                 file_extension := e.file_extension,
                 text_content := univNewlines ⟨d.text_content.data.take n⟩,
                 word_count := e.word_count, char_count := e.char_count,
                 from_cache := true, file_hash := file_hash }) ∧
    ((cacheDocument st .ok .openFail file_hash d).cache_index
        = (file_hash, entryOfDocument d) :: st.cache_index ∧
      (cacheDocument st .ok .openFail file_hash d).durable_index = st.durable_index) ∧
    ((cacheDocument st .ok (.midFail n) file_hash d).cache_index
        = (file_hash, entryOfDocument d) :: st.cache_index ∧
      (cacheDocument st .ok (.midFail n) file_hash d).durable_index = .corrupt ∧
      loadCacheIndex (cacheDocument st .ok (.midFail n) file_hash d).durable_index = []) ∧
    ((cacheDocument st .ok .ok file_hash d).cache_index
        = (file_hash, entryOfDocument d) :: st.cache_index ∧
      (cacheDocument st .ok .ok file_hash d).durable_index
        = .parsed ((file_hash, entryOfDocument d) :: st.cache_index)) := by
  refine ⟨rfl, rfl, ?_, ⟨rfl, rfl⟩, ⟨rfl, rfl, rfl⟩, ⟨rfl, rfl⟩⟩
  intro e he
  unfold cacheDocument getCachedDocument
  dsimp only
  rw [he]
  have hpath : textPathOf
      { st with files :=
          (textPathOf st file_hash, (⟨d.text_content.data.take n⟩ : String)) :: st.files }
      file_hash = textPathOf st file_hash := rfl
  rw [hpath]
  dsimp only [alookup]
  rw [if_pos rfl]

/-- Witness for C5 (amended) at a concrete input: digest `"h1"` is already
indexed in `hitCache`; a mid-write failure while re-storing text `"a\rb"`
after one character leaves the truncated blob `"a"`, which the next lookup
serves as a hit. -/
theorem c5_amended_store_failure_behaviour_witness :
    (cacheDocument hitCache .openFail .ok "h1" crDoc = hitCache) ∧
    ((getCachedDocument (cacheDocument hitCache (.midFail 1) .ok "h1" crDoc) "h1").2
      = some { file_path := sampleEntry.file_path, file_name := sampleEntry.file_name,
               file_extension := sampleEntry.file_extension,
               text_content := univNewlines ⟨crDoc.text_content.data.take 1⟩,
               word_count := sampleEntry.word_count, char_count := sampleEntry.char_count,
               from_cache := true, file_hash := "h1" }) := by
  have h := c5_amended_store_failure_behaviour hitCache "h1" crDoc 1 .ok
  have hidx : alookup hitCache.cache_index "h1" = some sampleEntry := by decide
  exact ⟨h.1, h.2.2.1 sampleEntry hidx⟩

/-- The cached record returned by a lookup of `hitCache` under digest
`"h1"`. -/
def cachedHitRecord : DocumentData :=
  { file_path := "documents/a.pdf", file_name := "a.pdf", file_extension := ".pdf",
    text_content := "Hello world", word_count := 2, char_count := 11,
    from_cache := true, file_hash := "h1" }

/-- Claim C10: `process_document` with `force_reprocess` false, on a cache
hit (path exists, `.pdf` extension, digest indexed, blob readable),
returns the cached record with `from_cache = True` and with its
`file_path` overwritten by the path argument of this call (line 173 of
`document_processor.py`), regardless of the original path stored in the
cache entry. -/
theorem c10_cache_hit_overwrites_path (hashOf : List Nat → String)
    (extractPdf : List Nat → Except String String) (w : World) (st : CacheState)
    (blob_write index_write : WriteOutcome) (file_path : String) (bytes : List Nat)
    (cd : DocumentData)
    (hfile : alookup w.inputFiles file_path = some bytes)
    (hext : asciiLower (splitextExt file_path) = ".pdf")
    (hcache : (getCachedDocument st (hashOf bytes)).2 = some cd) :
    processDocument hashOf extractPdf w st blob_write index_write file_path false
      = .ok ({ cd with file_path := file_path }, st) ∧
    cd.from_cache = true := by
  constructor
  · unfold processDocument
    rw [hfile]
    dsimp only
    rw [hext]
    rw [if_pos (by decide : (".pdf" : String) ∈ supportedExtensions)]
    have hpair : getCachedDocument st (hashOf bytes) = (st, some cd) := by
      rw [Prod.ext_iff]
      exact ⟨getCachedDocument_fst st (hashOf bytes), hcache⟩
    rw [hpair]
    rfl
  · exact getCachedDocument_from_cache st (hashOf bytes) cd hcache

/-- Witness for C10 at a concrete input: the cached entry stores
`"documents/a.pdf"` but the lookup uses the moved path
`"documents/moved.pdf"`, which the returned record carries. -/
theorem c10_cache_hit_overwrites_path_witness :
    processDocument (fun _ => "h1") (fun _ => .ok "ignored")
        ⟨[("documents/moved.pdf", [0])]⟩ hitCache .ok .ok "documents/moved.pdf" false
      = .ok ({ cachedHitRecord with file_path := "documents/moved.pdf" }, hitCache) ∧
    cachedHitRecord.from_cache = true :=
  c10_cache_hit_overwrites_path (fun _ => "h1") (fun _ => .ok "ignored")
    ⟨[("documents/moved.pdf", [0])]⟩ hitCache .ok .ok "documents/moved.pdf" [0]
    cachedHitRecord (by decide) (by decide) (by decide)



